import Mathlib

/-!
Shallow embedding of the request-governance subsystem of the apimgr/anime
quote server, translated from the Go source:

* the brute-force guard (`checkBruteForce`, `recordFailedAttempt`,
  `resetFailedAttempts`);
* the cron-style scheduler (`matchField`, `shouldRun`, `validateField`,
  `validateCronSchedule`, `AddTask`, the start/stop state machine);
* the typed settings accessors (`GetBoolSetting`, `GetIntSetting`,
  `GetStringArraySetting`) over an association-list model of the
  settings table;
* the settings manager (`LoadSettings`, `ImportSettings`,
  `ResetToDefaults`) with an explicit model of its non-reentrant
  write lock;
* client identity resolution (`getClientIP`).

Go strings are modelled as `List Char`; the Go library functions used by
the source (`strings.Split`, `strings.Fields`, `strings.Contains`,
`strings.TrimSpace`, `strconv.Atoi`, `strconv.ParseBool`) are given
faithful executable models below.  Machine integers are modelled as
`Int` (with Go's truncated `%` as `Int.tmod`); time is modelled as a
natural number of seconds.
-/

namespace Anime

/-! ### Go string primitives -/

/-- Model of a byte in Go's whitespace class as used by the source
(`strings.TrimSpace`, `strings.Fields`); the source data never contains
the more exotic unicode spaces. -/
def isSpaceCh (c : Char) : Bool :=
  c = ' ' || c = '\t' || c = '\n' || c = '\r'

/-- Decimal digit test, mirroring the bytes accepted by `strconv.Atoi`. -/
def isDigitCh (c : Char) : Bool :=
  decide (48 ≤ c.toNat) && decide (c.toNat ≤ 57)

/-- Model of Go `strings.Split` with a one-byte separator, generalised to a
predicate: splits at every character satisfying `p`, keeping empty pieces,
and always returns at least one piece. -/
def splitChP (p : Char → Bool) : List Char → List (List Char)
  | [] => [[]]
  | c :: cs =>
    let r := splitChP p cs
    if p c then [] :: r else (c :: r.headD []) :: r.tail

/-- Go `strings.Split s (String.mk [c])`. -/
def splitCh (c : Char) (l : List Char) : List (List Char) :=
  splitChP (fun x => x == c) l

/-- Go `strings.Contains s (String.mk [c])`. -/
def goContains (l : List Char) (c : Char) : Bool :=
  l.any (fun x => x == c)

/-- Go `strings.TrimSpace`. -/
def trimSpace (l : List Char) : List Char :=
  ((l.dropWhile isSpaceCh).reverse.dropWhile isSpaceCh).reverse

/-- Go `strings.Fields`: the maximal whitespace-free substrings. -/
def fieldsCh (l : List Char) : List (List Char) :=
  (splitChP isSpaceCh l).filter (fun q => !q.isEmpty)

/-- Numeric value of a digit character. -/
def digitVal (c : Char) : Nat := c.toNat - 48

/-- Value of an all-digit string read in base 10. -/
def digitsToNat (l : List Char) : Nat :=
  l.foldl (fun a c => a * 10 + digitVal c) 0

/-- Digit-run parser shared by the branches of `atoi`. -/
def atoiCore (l : List Char) : Option Nat :=
  if l.isEmpty then none
  else if l.all isDigitCh then some (digitsToNat l) else none

/-- Model of Go `strconv.Atoi`: an optional sign followed by a nonempty
run of digits; anything else is an error (`none`).  Overflow is not
modelled: the source only parses small cron-field and settings values. -/
def atoi (l : List Char) : Option Int :=
  match l with
  | [] => none
  | c :: rest =>
    if c = '+' then (atoiCore rest).map (fun n => (n : Int))
    else if c = '-' then (atoiCore rest).map (fun n => -(n : Int))
    else (atoiCore (c :: rest)).map (fun n => (n : Int))

/-! ### Brute-force guard (src/unnamed/part_003)

The global `failedAttempts` map is modelled as a function from IP strings
to optional records; `time.Now` is passed in explicitly as a natural
number of seconds, and `time.Since x > failedAttemptTimeout` becomes
`failedAttemptTimeout < now - x`. -/

/-- Threshold constant from the source (`maxFailedAttempts = 5`). -/
def maxFailedAttempts : Nat := 5

/-- Lockout window from the source (`15 * time.Minute`), in seconds. -/
def failedAttemptTimeout : Nat := 900

/-- The per-IP record stored in the `failedAttempts` map. -/
structure FailedLoginAttempt where
  count : Nat
  lastAttempt : Nat
deriving DecidableEq, Repr

/-- The global `failedAttempts` map. -/
def AttemptMap : Type := String → Option FailedLoginAttempt

/-- The initial empty map. -/
def emptyAttempts : AttemptMap := fun _ => none

/-- Map update (Go `failedAttempts[ip] = ...` or in-place mutation of the
record pointer, which is observationally the same). -/
def setAttempt (m : AttemptMap) (ip : String) (a : FailedLoginAttempt) : AttemptMap :=
  fun k => if k = ip then some a else m k

/-- Embedding of `checkBruteForce`.  The Go function takes only a read
lock and performs no writes, so the embedding returns the (unchanged)
map alongside the boolean verdict. -/
def checkBruteForce (m : AttemptMap) (ip : String) (now : Nat) : Bool × AttemptMap :=
  (match m ip with
   | none => false
   | some a =>
     if decide (failedAttemptTimeout < now - a.lastAttempt) then false
     else decide (maxFailedAttempts ≤ a.count),
   m)

/-- Embedding of `recordFailedAttempt`: fresh record at count 1 when
absent or expired, otherwise increment and refresh `lastAttempt`. -/
def recordFailedAttempt (m : AttemptMap) (ip : String) (now : Nat) : AttemptMap :=
  match m ip with
  | none => setAttempt m ip ⟨1, now⟩
  | some a =>
    if decide (failedAttemptTimeout < now - a.lastAttempt) then setAttempt m ip ⟨1, now⟩
    else setAttempt m ip ⟨a.count + 1, now⟩

/-- Embedding of `resetFailedAttempts`: delete the record. -/
def resetFailedAttempts (m : AttemptMap) (ip : String) : AttemptMap :=
  fun k => if k = ip then none else m k

/-! ### Cron scheduler (src/unnamed/part_001, package scheduler)

Field values come from `time.Now()` components and are Go `int`s, so they
are modelled as `Int`, with Go's truncated remainder as `Int.tmod`. -/

/-- The literal field `*`. -/
def starField : List Char := ['*']

/-- Embedding of `matchField`.  Branch order follows the source: the
wildcard, then range (`-`), list (`,`), stride (`/`), and finally an
exact value.  The `lo`/`hi` parameters mirror the Go signature; the Go
body never reads them. -/
def matchField (field : List Char) (value lo hi : Int) : Bool :=
  if field = starField then true
  else if goContains field '-' then
    match splitCh '-' field with
    | [p1, p2] =>
      match atoi p1, atoi p2 with
      | some a, some b => decide (a ≤ value) && decide (value ≤ b)
      | _, _ => false
    | _ => false
  else if goContains field ',' then
    (splitCh ',' field).any (fun part =>
      match atoi (trimSpace part) with
      | some v => v == value
      | none => false)
  else if goContains field '/' then
    match splitCh '/' field with
    | [p1, p2] =>
      match atoi p2 with
      | some step =>
        if decide (0 < step) then
          if p1 = starField then Int.tmod value step == 0
          else
            match atoi p1 with
            | some start => decide (start ≤ value) && (Int.tmod (value - start) step == 0)
            | none => false
        else false
      | none => false
    | _ => false
  else
    match atoi field with
    | some v => v == value
    | none => false

/-- Wall-clock components consumed by `shouldRun` (minute, hour, day of
month, month, weekday with 0 = Sunday). -/
structure DateTime where
  minute : Int
  hour : Int
  day : Int
  month : Int
  weekday : Int
deriving DecidableEq, Repr

/-- Embedding of `shouldRun`: all five fields must match the current
time; a schedule without exactly five fields never matches. -/
def shouldRun (schedule : List Char) (now : DateTime) : Bool :=
  match fieldsCh schedule with
  | [mi, h, d, mo, w] =>
    matchField mi now.minute 0 59 && matchField h now.hour 0 23 &&
    matchField d now.day 1 31 && matchField mo now.month 1 12 &&
    matchField w now.weekday 0 6
  | _ => false

/-- The distinct error cases of `validateField`. -/
inductive FieldError where
  | badRangeFormat
  | badRangeValues
  | rangeOutOfBounds
  | badListValue
  | listOutOfBounds
  | badStepFormat
  | badStepValue
  | badStepStart
  | stepStartOutOfBounds
  | badValue
  | valueOutOfBounds
deriving DecidableEq, Repr

/-- The per-part loop of the list branch of `validateField`. -/
def checkListParts (lo hi : Int) : List (List Char) → Except FieldError Unit
  | [] => .ok ()
  | p :: ps =>
    match atoi (trimSpace p) with
    | none => .error .badListValue
    | some v =>
      if decide (v < lo) || decide (hi < v) then .error .listOutOfBounds
      else checkListParts lo hi ps

/-- Embedding of `validateField`, branch for branch. -/
def validateField (field : List Char) (lo hi : Int) : Except FieldError Unit :=
  if field = starField then .ok ()
  else if goContains field '-' then
    match splitCh '-' field with
    | [p1, p2] =>
      match atoi p1, atoi p2 with
      | some a, some b =>
        if decide (a < lo) || decide (hi < a) || decide (b < lo) || decide (hi < b)
            || decide (b < a) then
          .error .rangeOutOfBounds
        else .ok ()
      | _, _ => .error .badRangeValues
    | _ => .error .badRangeFormat
  else if goContains field ',' then
    checkListParts lo hi (splitCh ',' field)
  else if goContains field '/' then
    match splitCh '/' field with
    | [p1, p2] =>
      match atoi p2 with
      | some step =>
        if decide (step ≤ 0) then .error .badStepValue
        else if p1 = starField then .ok ()
        else
          match atoi p1 with
          | some start =>
            if decide (start < lo) || decide (hi < start) then .error .stepStartOutOfBounds
            else .ok ()
          | none => .error .badStepStart
      | none => .error .badStepValue
    | _ => .error .badStepFormat
  else
    match atoi field with
    | some v =>
      if decide (v < lo) || decide (hi < v) then .error .valueOutOfBounds else .ok ()
    | none => .error .badValue

/-- Errors surfaced by `validateCronSchedule`: wrong field count, or the
first failing field with its name. -/
inductive CronError where
  | badFieldCount (n : Nat)
  | fieldError (name : List Char) (e : FieldError)
deriving DecidableEq, Repr

/-- Embedding of `validateCronSchedule`: exactly five
whitespace-separated fields, each validated against its bounds in
order, first error wins. -/
def validateCronSchedule (schedule : List Char) : Except CronError Unit :=
  match fieldsCh schedule with
  | [mi, h, d, mo, w] =>
    match validateField mi 0 59 with
    | .error e => .error (.fieldError "minute".toList e)
    | .ok _ =>
      match validateField h 0 23 with
      | .error e => .error (.fieldError "hour".toList e)
      | .ok _ =>
        match validateField d 1 31 with
        | .error e => .error (.fieldError "day".toList e)
        | .ok _ =>
          match validateField mo 1 12 with
          | .error e => .error (.fieldError "month".toList e)
          | .ok _ =>
            match validateField w 0 6 with
            | .error e => .error (.fieldError "weekday".toList e)
            | .ok _ => .ok ()
  | parts => .error (.badFieldCount parts.length)

/-- A registered task.  The Go `Func` callback plays no role in
registration or due-evaluation decisions and is not part of the model;
dispatches are identified by the task name. -/
structure CTask where
  name : List Char
  schedule : List Char
deriving DecidableEq, Repr

/-- Embedding of `Scheduler.AddTask`: validate, then append; on a
validation error the task list is returned unchanged. -/
def AddTask (tasks : List CTask) (name schedule : List Char) :
    Except CronError Unit × List CTask :=
  match validateCronSchedule schedule with
  | .error e => (.error e, tasks)
  | .ok _ => (.ok (), tasks ++ [⟨name, schedule⟩])

/-- Scheduler control state: the task list, the `running` flag, and
whether `stopCh` has been closed.  `New()` creates the channel exactly
once, so closing is permanent. -/
structure SchedulerState where
  tasks : List CTask
  running : Bool
  stopClosed : Bool
deriving DecidableEq, Repr

/-- Embedding of `scheduler.New`. -/
def newScheduler : SchedulerState := ⟨[], false, false⟩

/-- Embedding of `Scheduler.Start`: a no-op when already running;
otherwise sets `running` and spawns the evaluation loop (modelled
separately by `runLoopDispatch`). -/
def startSched (s : SchedulerState) : SchedulerState :=
  if s.running then s else { s with running := true }

/-- Embedding of `Scheduler.Stop`: a no-op when not running; otherwise
closes `stopCh`, waits for the loop to exit, and clears `running`. -/
def stopSched (s : SchedulerState) : SchedulerState :=
  if s.running then { s with stopClosed := true, running := false } else s

/-- Embedding of `Scheduler.checkTasks`: the names of the tasks whose
schedule matches `now`, each dispatched on its own goroutine. -/
def checkTasksDispatch (tasks : List CTask) (now : DateTime) : List (List Char) :=
  (tasks.filter (fun t => shouldRun t.schedule now)).map (fun t => t.name)

/-- Embedding of `Scheduler.run` as the dispatches it produces for a
given sequence of ticker firings.  Each iteration models the `select`:
once `stopCh` is closed that case is always ready and is chosen at loop
entry, before the minute ticker can ever fire, so the loop returns with
no further evaluation. -/
def runLoopDispatch (s : SchedulerState) : List DateTime → List (List Char)
  | [] => []
  | t :: ts =>
    if s.stopClosed then []
    else checkTasksDispatch s.tasks t ++ runLoopDispatch s ts

/-- Scheduler API calls, for reasoning over arbitrary later histories. -/
inductive SchedOp where
  | opStart
  | opStop
  | opAdd (name schedule : List Char)
deriving DecidableEq, Repr

/-- One API call applied to the control state. -/
def applySchedOp (s : SchedulerState) : SchedOp → SchedulerState
  | .opStart => startSched s
  | .opStop => stopSched s
  | .opAdd n sch => { s with tasks := (AddTask s.tasks n sch).2 }

/-! ### Durable settings store and typed accessors (src/src/database/settings.go)

The SQL `settings` table is modelled as an association list of
key/value rows (first match wins, as `QueryRow` returns the first row).
`GetSetting` maps `sql.ErrNoRows` to the empty string with no error, so
in the pure model it is total. -/

/-- The settings table: key/value rows. -/
abbrev Store : Type := List (String × String)

/-- First row whose key matches, if any. -/
def lookupStore (st : Store) (k : String) : Option String :=
  match st with
  | [] => none
  | (k1, v1) :: rest => if k1 = k then some v1 else lookupStore rest k

/-- Embedding of `DB.GetSetting`: absent keys read as the empty string. -/
def getSettingGo (st : Store) (k : String) : String :=
  (lookupStore st k).getD ""

/-- Embedding of `DB.SetSetting` (INSERT ... ON CONFLICT DO UPDATE). -/
def upsertStore (st : Store) (k v : String) : Store :=
  if (lookupStore st k).isSome then
    st.map (fun p => if p.1 = k then (k, v) else p)
  else st ++ [(k, v)]

/-- Embedding of the row deletion performed by `DB.DeleteSetting`. -/
def deleteStore (st : Store) (k : String) : Store :=
  st.filter (fun p => !(p.1 == k))

/-- Model of Go `strconv.ParseBool`: the exact accepted spellings. -/
def parseBool (s : String) : Option Bool :=
  if s = "1" || s = "t" || s = "T" || s = "true" || s = "TRUE" || s = "True" then some true
  else if s = "0" || s = "f" || s = "F" || s = "false" || s = "FALSE" || s = "False" then some false
  else none

/-- Embedding of `DB.GetBoolSetting`: parse, defaulting on absence or
parse failure; errors never escape. -/
def GetBoolSetting (st : Store) (k : String) (defaultValue : Bool) : Bool :=
  let v := getSettingGo st k
  if v = "" then defaultValue
  else
    match parseBool v with
    | some b => b
    | none => defaultValue

/-- Embedding of `DB.GetIntSetting`. -/
def GetIntSetting (st : Store) (k : String) (defaultValue : Int) : Int :=
  let v := getSettingGo st k
  if v = "" then defaultValue
  else
    match atoi v.toList with
    | some n => n
    | none => defaultValue

/-! A model of `encoding/json` unmarshalling into `[]string`, the only
shape the source uses (`GetSettingJSON` with a `[]string` target): a
JSON array of strings, or `null` (which leaves the slice nil).  Escape
sequences are modelled as dropping the backslash, which is exact for
the two escapes occurring in the repository data (`\"` and `\\`). -/

/-- JSON insignificant whitespace. -/
def skipWs (l : List Char) : List Char := l.dropWhile isSpaceCh

/-- Parse the remainder of a JSON string literal whose opening quote has
been consumed; returns the content and the input after the closing
quote. -/
def parseJsonString : List Char → Option (List Char × List Char)
  | [] => none
  | '"' :: rest => some ([], rest)
  | '\\' :: c :: rest => (parseJsonString rest).map (fun p => (c :: p.1, p.2))
  | c :: rest => (parseJsonString rest).map (fun p => (c :: p.1, p.2))

/-- Parse the items of a nonempty string array, positioned just after
`[` (or after a comma); fuelled by the input length. -/
def parseArrayItems : Nat → List Char → Option (List (List Char))
  | 0, _ => none
  | fuel + 1, l =>
    match skipWs l with
    | '"' :: rest =>
      match parseJsonString rest with
      | none => none
      | some (s, after) =>
        match skipWs after with
        | ']' :: tail => if skipWs tail = [] then some [s] else none
        | ',' :: tail => (parseArrayItems fuel tail).map (fun ss => s :: ss)
        | _ => none
    | _ => none

/-- Unmarshal a JSON value into `[]string`: an array of strings or
`null`; anything else (or trailing garbage) is an error. -/
def parseStringArray (l : List Char) : Option (List (List Char)) :=
  match skipWs l with
  | '[' :: rest =>
    match skipWs rest with
    | ']' :: tail => if skipWs tail = [] then some [] else none
    | _ => parseArrayItems (l.length + 1) rest
  | 'n' :: 'u' :: 'l' :: 'l' :: tail => if skipWs tail = [] then some [] else none
  | _ => none

/-- Embedding of `DB.GetStringArraySetting`: `GetSettingJSON` leaves the
slice nil on an absent key, and the accessor falls back to the default
whenever unmarshalling failed or the resulting slice is empty
(`err != nil || len(result) == 0`). -/
def GetStringArraySetting (st : Store) (k : String) (defaultValue : List (List Char)) :
    List (List Char) :=
  let v := getSettingGo st k
  if v = "" then defaultValue
  else
    match parseStringArray v.toList with
    | none => defaultValue
    | some l => if l.length = 0 then defaultValue else l

/-- Default rows seeded by `InitializeDefaultSettings`, as (key, value)
pairs; the kind/category/description metadata plays no role in any
claim. -/
def defaultSettings : List (String × String) :=
  [("cors_enabled", "true"),
   ("cors_allowed_origins", "[\"*\"]"),
   ("cors_allowed_methods", "[\"GET\",\"POST\",\"PUT\",\"DELETE\",\"OPTIONS\"]"),
   ("cors_allowed_headers", "[\"Content-Type\",\"Authorization\"]"),
   ("cors_allow_credentials", "false"),
   ("cors_max_age", "3600"),
   ("rate_limit_enabled", "true"),
   ("rate_limit_global_rps", "100"),
   ("rate_limit_global_burst", "200"),
   ("rate_limit_api_rps", "50"),
   ("rate_limit_api_burst", "100"),
   ("rate_limit_admin_rps", "10"),
   ("rate_limit_admin_burst", "20"),
   ("request_timeout", "60"),
   ("request_max_body_size", "10485760"),
   ("request_max_header_size", "1048576"),
   ("connection_max_concurrent", "1000"),
   ("connection_idle_timeout", "120"),
   ("connection_read_timeout", "10"),
   ("connection_write_timeout", "10"),
   ("security_frame_options", "DENY"),
   ("security_content_type_options", "nosniff"),
   ("security_xss_protection", "1; mode=block"),
   ("security_referrer_policy", "strict-origin-when-cross-origin"),
   ("security_permissions_policy", "geolocation=(), microphone=(), camera=()"),
   ("security_csp_enabled", "true"),
   ("security_csp", "default-src \x27self\x27; script-src \x27self\x27 \x27unsafe-inline\x27; style-src \x27self\x27 \x27unsafe-inline\x27; img-src \x27self\x27 data:; font-src \x27self\x27; connect-src \x27self\x27"),
   ("security_hsts_enabled", "true"),
   ("security_hsts_max_age", "31536000"),
   ("security_hsts_include_subdomains", "true")]

/-! ### Settings manager (src/src/server/settings_manager.go)

`SettingsManager` guards its cache with a non-reentrant `sync.RWMutex`.
`LoadSettings` begins with `sm.mu.Lock()`; when the calling method
already holds that write lock, the acquisition blocks forever (nothing
can release it), which the model records as a `deadlock` outcome
carrying the durable store at the moment the goroutine blocks.
Database failures observed by the manager are driven by an explicit
failure environment so that the logged-and-skipped paths are visible. -/

/-- Which database calls fail, per key where relevant. -/
structure DbEnv where
  setFails : String → Bool
  getAllFails : Bool
  deleteFails : String → Bool
  initFails : Bool

/-- The environment in which every database call succeeds. -/
def happyEnv : DbEnv :=
  ⟨fun _ => false, false, fun _ => false, false⟩

/-- Outcome of a settings-manager method. -/
inductive MgrOutcome (α : Type) where
  | ok : α → MgrOutcome α
  | dbError : MgrOutcome α
  | deadlock : Store → MgrOutcome α
deriving DecidableEq, Repr

/-- Whether the method blocked forever. -/
def MgrOutcome.isDeadlock : MgrOutcome α → Bool
  | .deadlock _ => true
  | _ => false

/-- Embedding of `SettingsManager.LoadSettings`, parameterised by
whether the caller already holds `sm.mu`: the body starts with
`sm.mu.Lock()`, so a holding caller blocks forever; otherwise the whole
table is fetched and becomes the new cache. -/
def LoadSettings (held : Bool) (env : DbEnv) (st : Store) : MgrOutcome Store :=
  if held then .deadlock st
  else if env.getAllFails then .dbError
  else .ok st

/-- Embedding of the seeding pass of `InitializeDefaultSettings` in the
non-failing case: each default row is written only when its key reads
as absent. -/
def initializeDefaultSettings (st : Store) : Store :=
  defaultSettings.foldl
    (fun s kv => if getSettingGo s kv.1 = "" then upsertStore s kv.1 kv.2 else s) st

/-- The delete-all pass of `ResetToDefaults`: every key read from
`GetAllSettings` is deleted, with per-key failures logged and
skipped. -/
def deleteAllKeys (env : DbEnv) (st : Store) : Store :=
  (st.map (fun p => p.1)).foldl
    (fun s k => if env.deleteFails k then s else deleteStore s k) st

/-- Embedding of `SettingsManager.ResetToDefaults`: the method acquires
`sm.mu` for its whole body, deletes all rows, re-seeds the defaults,
and finally calls `LoadSettings` — which re-acquires the already-held
lock.  On success the outcome would carry the final store and cache. -/
def ResetToDefaults (env : DbEnv) (st : Store) : MgrOutcome (Store × Store) :=
  if env.getAllFails then .dbError
  else
    let st1 := deleteAllKeys env st
    if env.initFails then .dbError
    else
      let st2 := initializeDefaultSettings st1
      match LoadSettings true env st2 with
      | .ok c => .ok (st2, c)
      | .dbError => .dbError
      | .deadlock s => .deadlock s

/-- The write-through pass of `ImportSettings`: each pair is written in
turn; a failing `SetSetting` is logged and skipped, and never stops the
remaining writes. -/
def applyImports (env : DbEnv) (updates : List (String × String)) (st : Store) : Store :=
  updates.foldl
    (fun s kv => if env.setFails kv.1 then s else upsertStore s kv.1 kv.2) st

/-- Embedding of `SettingsManager.ImportSettings`: the method acquires
`sm.mu` for its whole body, applies every update best-effort, then
calls `LoadSettings` — which re-acquires the already-held lock. -/
def ImportSettings (env : DbEnv) (updates : List (String × String)) (st : Store) :
    MgrOutcome (Store × Store) :=
  let st1 := applyImports env updates st
  match LoadSettings true env st1 with
  | .ok c => .ok (st1, c)
  | .dbError => .dbError
  | .deadlock s => .deadlock s

/-! ### Client identity resolution (src/src/server/middleware.go) -/

/-- The request data read by `getClientIP`: the two proxy headers
(`Header.Get` yields the empty string when absent) and the raw
connection address. -/
structure HttpReq where
  xff : List Char
  xri : List Char
  remoteAddr : List Char
deriving DecidableEq, Repr

/-- Go `strings.LastIndex s ":"` followed by `s[:idx]`: drop the last
colon and everything after it; unchanged when there is no colon. -/
def dropFromLastColon (l : List Char) : List Char :=
  match l.reverse.dropWhile (fun x => !(x == ':')) with
  | [] => l
  | _ :: rest => rest.reverse

/-- Membership in the cutset of Go `strings.Trim(ip, "[]")`. -/
def isBracketCh (c : Char) : Bool := c = '[' || c = ']'

/-- Go `strings.Trim(ip, "[]")`: strip leading and trailing brackets. -/
def trimBrackets (l : List Char) : List Char :=
  ((l.dropWhile isBracketCh).reverse.dropWhile isBracketCh).reverse

/-- Embedding of `getClientIP`.  The source guards the forwarded-for
branch with `len(ips) > 0`, which always holds since `strings.Split`
never returns an empty slice (`splitChP_ne_nil` below), so the branch
is collapsed to taking the head. -/
def getClientIP (r : HttpReq) : List Char :=
  if r.xff ≠ [] then trimSpace ((splitCh ',' r.xff).headD [])
  else if r.xri ≠ [] then trimSpace r.xri
  else trimBrackets (dropFromLastColon r.remoteAddr)

/-! ### Lemmas about the Go string primitives -/

theorem splitChP_ne_nil (p : Char → Bool) (l : List Char) : splitChP p l ≠ [] := by
  cases l with
  | nil => simp [splitChP]
  | cons c cs =>
    simp only [splitChP]
    by_cases h : p c <;> simp [h]

theorem splitChP_eq_single (p : Char → Bool) (l : List Char)
    (h : ∀ x ∈ l, p x = false) : splitChP p l = [l] := by
  induction l with
  | nil => rfl
  | cons c cs ih =>
    have hc : p c = false := h c (List.mem_cons_self c cs)
    have ihr : splitChP p cs = [cs] := ih (fun x hx => h x (List.mem_cons_of_mem c hx))
    simp [splitChP, hc, ihr]

theorem splitChP_append (p : Char → Bool) (l1 l2 : List Char) (c : Char)
    (h : ∀ x ∈ l1, p x = false) (hc : p c = true) :
    splitChP p (l1 ++ c :: l2) = l1 :: splitChP p l2 := by
  induction l1 with
  | nil => simp [splitChP, hc]
  | cons a as ih =>
    have ha : p a = false := h a (List.mem_cons_self a as)
    have ihr := ih (fun x hx => h x (List.mem_cons_of_mem a hx))
    simp [splitChP, ha, ihr]

theorem splitCh_eq_single (c : Char) (l : List Char)
    (h : ∀ x ∈ l, x ≠ c) : splitCh c l = [l] := by
  apply splitChP_eq_single
  intro x hx
  simpa using h x hx

theorem splitCh_append (c : Char) (l1 l2 : List Char)
    (h : ∀ x ∈ l1, x ≠ c) :
    splitCh c (l1 ++ c :: l2) = l1 :: splitCh c l2 := by
  apply splitChP_append
  · intro x hx
    simpa using h x hx
  · simp

theorem dropWhile_eq_self_of (p : Char → Bool) (l : List Char)
    (h : ∀ x ∈ l, p x = false) : l.dropWhile p = l := by
  cases l with
  | nil => rfl
  | cons a as => simp [List.dropWhile_cons, h a (List.mem_cons_self a as)]

theorem trimSpace_eq_self (l : List Char)
    (h : ∀ x ∈ l, isSpaceCh x = false) : trimSpace l = l := by
  unfold trimSpace
  rw [dropWhile_eq_self_of isSpaceCh l h,
      dropWhile_eq_self_of isSpaceCh l.reverse (fun x hx => h x (List.mem_reverse.mp hx)),
      List.reverse_reverse]

theorem goContains_eq_false (l : List Char) (c : Char)
    (h : ∀ x ∈ l, x ≠ c) : goContains l c = false := by
  simp only [goContains, List.any_eq_false]
  intro x hx
  simpa using h x hx

theorem isDigitCh_ne_of_not_digit (c d : Char) (hc : isDigitCh c = true)
    (hd : isDigitCh d = false) : c ≠ d := by
  intro h
  rw [h, hd] at hc
  exact Bool.false_ne_true hc

theorem atoi_digits (l : List Char) (h0 : l ≠ [])
    (h : ∀ x ∈ l, isDigitCh x = true) :
    atoi l = some ((digitsToNat l : Nat) : Int) := by
  cases l with
  | nil => exact absurd rfl h0
  | cons c cs =>
    have hc : isDigitCh c = true := h c (List.mem_cons_self c cs)
    have hplus : c ≠ '+' := isDigitCh_ne_of_not_digit c '+' hc (by decide)
    have hminus : c ≠ '-' := isDigitCh_ne_of_not_digit c '-' hc (by decide)
    have hall : (c :: cs).all isDigitCh = true := by
      simp only [List.all_eq_true]
      exact fun x hx => h x hx
    simp [atoi, hplus, hminus, atoiCore, hall]

theorem digits_no_space (l : List Char) (h : ∀ x ∈ l, isDigitCh x = true) :
    ∀ x ∈ l, isSpaceCh x = false := by
  intro x hx
  have hd := h x hx
  by_contra hs
  simp only [Bool.not_eq_false] at hs
  have hcase : x = ' ' ∨ x = '\t' ∨ x = '\n' ∨ x = '\r' := by
    revert hs
    unfold isSpaceCh
    intro hs
    simp only [Bool.or_eq_true, decide_eq_true_eq] at hs
    tauto
  rcases hcase with h1 | h1 | h1 | h1 <;> (subst h1; revert hd; decide)

/-- Separator for comma-joined lists in the statements below. -/
def joinSep (c : Char) : List (List Char) → List Char
  | [] => []
  | [p] => p
  | p :: q :: ps => p ++ c :: joinSep c (q :: ps)

theorem splitCh_joinSep (c : Char) (ps : List (List Char)) (h0 : ps ≠ [])
    (h : ∀ p ∈ ps, ∀ x ∈ p, x ≠ c) :
    splitCh c (joinSep c ps) = ps := by
  induction ps with
  | nil => exact absurd rfl h0
  | cons p qs ih =>
    cases qs with
    | nil =>
      simp only [joinSep]
      exact splitCh_eq_single c p (h p (List.mem_cons_self p []))
    | cons q rs =>
      simp only [joinSep]
      rw [splitCh_append c p _ (h p (List.mem_cons_self p (q :: rs)))]
      rw [ih (by simp) (fun r hr x hx => h r (List.mem_cons_of_mem p hr) x hx)]

theorem joinSep_mem (c : Char) (ps : List (List Char)) (x : Char)
    (hx : x ∈ joinSep c ps) : x = c ∨ ∃ p ∈ ps, x ∈ p := by
  induction ps with
  | nil => simp [joinSep] at hx
  | cons p qs ih =>
    cases qs with
    | nil =>
      simp only [joinSep] at hx
      exact Or.inr ⟨p, List.mem_cons_self p [], hx⟩
    | cons q rs =>
      simp only [joinSep, List.mem_append, List.mem_cons] at hx
      rcases hx with h1 | h1 | h1
      · exact Or.inr ⟨p, List.mem_cons_self p (q :: rs), h1⟩
      · exact Or.inl h1
      · rcases ih h1 with h2 | ⟨r, hr, hxr⟩
        · exact Or.inl h2
        · exact Or.inr ⟨r, List.mem_cons_of_mem p hr, hxr⟩

theorem goContains_joinSep_true (c : Char) (ps : List (List Char))
    (h : 2 ≤ ps.length) : goContains (joinSep c ps) c = true := by
  cases ps with
  | nil => simp at h
  | cons p qs =>
    cases qs with
    | nil => simp at h
    | cons q rs =>
      simp only [joinSep, goContains, List.any_eq_true]
      exact ⟨c, by simp, by simp⟩

/-! ### Helper lemmas for the brute-force guard -/

theorem recordFailedAttempt_absent (m : AttemptMap) (X : String) (t : Nat)
    (h : m X = none) : recordFailedAttempt m X t X = some ⟨1, t⟩ := by
  simp [recordFailedAttempt, h, setAttempt]

theorem recordFailedAttempt_within (m : AttemptMap) (X : String) (t : Nat)
    (c tl : Nat) (h : m X = some ⟨c, tl⟩) (hw : t - tl ≤ failedAttemptTimeout) :
    recordFailedAttempt m X t X = some ⟨c + 1, t⟩ := by
  simp only [recordFailedAttempt, h]
  rw [if_neg]
  · simp [setAttempt]
  · simp only [decide_eq_true_eq]
    omega

theorem resetFailedAttempts_self (m : AttemptMap) (X : String) :
    resetFailedAttempts m X X = none := by
  simp [resetFailedAttempts]

/-- C1: starting from an empty failure map, five consecutive
`recordFailedAttempt` calls on identity `X`, each within the 15-minute
window of its predecessor, make `checkBruteForce` block a 6th attempt;
after four failures, one `resetFailedAttempts` deletes the record, and
a subsequent failure yields a fresh record with count 1, for which
`checkBruteForce` stays false. -/
theorem bruteForce_block_and_reset (X : String) (t1 t2 t3 t4 t5 t6 t7 t8 : Nat)
    (h12 : t2 - t1 ≤ failedAttemptTimeout) (h23 : t3 - t2 ≤ failedAttemptTimeout)
    (h34 : t4 - t3 ≤ failedAttemptTimeout) (h45 : t5 - t4 ≤ failedAttemptTimeout)
    (h56 : t6 - t5 ≤ failedAttemptTimeout) :
    ((checkBruteForce
        (recordFailedAttempt (recordFailedAttempt (recordFailedAttempt
          (recordFailedAttempt (recordFailedAttempt emptyAttempts X t1) X t2) X t3) X t4) X t5)
        X t6).1 = true)
    ∧ (resetFailedAttempts
        (recordFailedAttempt (recordFailedAttempt (recordFailedAttempt
          (recordFailedAttempt emptyAttempts X t1) X t2) X t3) X t4) X) X = none
    ∧ (recordFailedAttempt (resetFailedAttempts (recordFailedAttempt (recordFailedAttempt
          (recordFailedAttempt (recordFailedAttempt emptyAttempts X t1) X t2) X t3) X t4) X)
        X t7) X = some ⟨1, t7⟩
    ∧ ((checkBruteForce (recordFailedAttempt (resetFailedAttempts (recordFailedAttempt
          (recordFailedAttempt (recordFailedAttempt (recordFailedAttempt emptyAttempts X t1)
            X t2) X t3) X t4) X) X t7) X t8).1 = false) := by
  have e0 : emptyAttempts X = none := rfl
  have e1 := recordFailedAttempt_absent emptyAttempts X t1 e0
  have e2 := recordFailedAttempt_within _ X t2 1 t1 e1 h12
  have e3 := recordFailedAttempt_within _ X t3 2 t2 e2 h23
  have e4 := recordFailedAttempt_within _ X t4 3 t3 e3 h34
  have e5 := recordFailedAttempt_within _ X t5 4 t4 e4 h45
  have hreset := resetFailedAttempts_self
    (recordFailedAttempt (recordFailedAttempt (recordFailedAttempt
      (recordFailedAttempt emptyAttempts X t1) X t2) X t3) X t4) X
  have e7 := recordFailedAttempt_absent _ X t7 hreset
  refine ⟨?_, hreset, e7, ?_⟩
  · simp only [checkBruteForce, e5]
    have hcond : ¬ (failedAttemptTimeout < t6 - t5) := by omega
    simp [hcond, maxFailedAttempts]
  · simp only [checkBruteForce, e7]
    by_cases h : failedAttemptTimeout < t8 - t7
    · simp [h]
    · simp [h, maxFailedAttempts]

/-- Witness for C1 at concrete inputs. -/
theorem bruteForce_block_and_reset_witness :
    ((checkBruteForce
        (recordFailedAttempt (recordFailedAttempt (recordFailedAttempt
          (recordFailedAttempt (recordFailedAttempt emptyAttempts "X" 0) "X" 60) "X" 120)
          "X" 180) "X" 240) "X" 300).1 = true)
    ∧ (resetFailedAttempts
        (recordFailedAttempt (recordFailedAttempt (recordFailedAttempt
          (recordFailedAttempt emptyAttempts "X" 0) "X" 60) "X" 120) "X" 180) "X") "X" = none
    ∧ (recordFailedAttempt (resetFailedAttempts (recordFailedAttempt (recordFailedAttempt
          (recordFailedAttempt (recordFailedAttempt emptyAttempts "X" 0) "X" 60) "X" 120)
          "X" 180) "X") "X" 360) "X" = some ⟨1, 360⟩
    ∧ ((checkBruteForce (recordFailedAttempt (resetFailedAttempts (recordFailedAttempt
          (recordFailedAttempt (recordFailedAttempt (recordFailedAttempt emptyAttempts "X" 0)
            "X" 60) "X" 120) "X" 180) "X") "X" 360) "X" 420).1 = false) :=
  bruteForce_block_and_reset "X" 0 60 120 180 240 300 360 420
    (by decide) (by decide) (by decide) (by decide) (by decide)

/-- C8: `checkBruteForce` never mutates the failure map — not for a
single probe, nor for any sequence of probes — and for a record at or
above the threshold the verdict is true exactly when the probe falls
within the lockout window of the last recorded failure, so a block
lapses exactly `failedAttemptTimeout` after the last failure no matter
how many blocked probes happen in between. -/
theorem checkBruteForce_frame (m : AttemptMap) (X : String) (ts : List Nat) (t : Nat)
    (a : FailedLoginAttempt) (hm : m X = some a) (hc : maxFailedAttempts ≤ a.count) :
    ((checkBruteForce m X t).2 = m)
    ∧ (ts.foldl (fun acc u => (checkBruteForce acc X u).2) m = m)
    ∧ ((checkBruteForce m X t).1 = true ↔ t - a.lastAttempt ≤ failedAttemptTimeout) := by
  refine ⟨rfl, ?_, ?_⟩
  · induction ts with
    | nil => rfl
    | cons u us ih => simpa using ih
  · simp only [checkBruteForce, hm]
    by_cases h : failedAttemptTimeout < t - a.lastAttempt
    · simp [h]
      omega
    · simp [h, hc]
      omega

/-- Witness for C8 at concrete inputs. -/
theorem checkBruteForce_frame_witness :
    ((checkBruteForce (setAttempt emptyAttempts "X" ⟨5, 0⟩) "X" 10).2
        = setAttempt emptyAttempts "X" ⟨5, 0⟩)
    ∧ ([20, 30, 40].foldl
        (fun acc u => (checkBruteForce acc "X" u).2) (setAttempt emptyAttempts "X" ⟨5, 0⟩)
        = setAttempt emptyAttempts "X" ⟨5, 0⟩)
    ∧ ((checkBruteForce (setAttempt emptyAttempts "X" ⟨5, 0⟩) "X" 10).1 = true ↔
        10 - (0 : Nat) ≤ failedAttemptTimeout) :=
  checkBruteForce_frame (setAttempt emptyAttempts "X" ⟨5, 0⟩) "X" [20, 30, 40] 10
    ⟨5, 0⟩ (by simp [setAttempt]) (by decide)

/-! ### Scheduler control lemmas -/

theorem applySchedOp_stopClosed (s : SchedulerState) (op : SchedOp)
    (h : s.stopClosed = true) : (applySchedOp s op).stopClosed = true := by
  cases op with
  | opStart =>
    simp only [applySchedOp, startSched]
    split <;> simp [h]
  | opStop =>
    simp only [applySchedOp, stopSched]
    split <;> simp [h]
  | opAdd n sch => simpa [applySchedOp] using h

theorem foldl_applySchedOp_stopClosed (ops : List SchedOp) (s : SchedulerState)
    (h : s.stopClosed = true) : (ops.foldl applySchedOp s).stopClosed = true := by
  induction ops generalizing s with
  | nil => exact h
  | cons op rest ih => exact ih _ (applySchedOp_stopClosed s op h)

theorem startSched_stopClosed (s : SchedulerState) :
    (startSched s).stopClosed = s.stopClosed := by
  simp only [startSched]
  split <;> rfl

theorem startSched_running (s : SchedulerState) : (startSched s).running = true := by
  simp only [startSched]
  split <;> simp_all

theorem runLoopDispatch_of_stopClosed (s : SchedulerState) (h : s.stopClosed = true)
    (ticks : List DateTime) : runLoopDispatch s ticks = [] := by
  cases ticks <;> simp [runLoopDispatch, h]

/-- C9: once `Stop()` has stopped a running scheduler, the stop channel
stays closed through any later sequence of API calls; a later `Start()`
still sets the `running` flag, but the evaluation loop it spawns sees
the closed channel at its first `select` and exits before any ticker
firing, so no tick is evaluated and no task is dispatched. -/
theorem scheduler_cannot_restart (s : SchedulerState) (ops : List SchedOp)
    (ticks : List DateTime) (h : s.running = true) :
    ((startSched (ops.foldl applySchedOp (stopSched s))).running = true)
    ∧ runLoopDispatch (startSched (ops.foldl applySchedOp (stopSched s))) ticks = [] := by
  have h1 : (stopSched s).stopClosed = true := by
    simp [stopSched, h]
  have h2 : (ops.foldl applySchedOp (stopSched s)).stopClosed = true :=
    foldl_applySchedOp_stopClosed ops _ h1
  have h3 : (startSched (ops.foldl applySchedOp (stopSched s))).stopClosed = true := by
    rw [startSched_stopClosed]
    exact h2
  exact ⟨startSched_running _, runLoopDispatch_of_stopClosed _ h3 ticks⟩

/-- Witness for C9 at concrete inputs: a running scheduler with one
registered task whose schedule matches every minute. -/
theorem scheduler_cannot_restart_witness :
    ((startSched ([SchedOp.opStart].foldl applySchedOp
        (stopSched ⟨[⟨"t".toList, "* * * * *".toList⟩], true, false⟩))).running = true)
    ∧ runLoopDispatch (startSched ([SchedOp.opStart].foldl applySchedOp
        (stopSched ⟨[⟨"t".toList, "* * * * *".toList⟩], true, false⟩)))
        [⟨0, 0, 1, 1, 0⟩] = [] :=
  scheduler_cannot_restart ⟨[⟨"t".toList, "* * * * *".toList⟩], true, false⟩
    [SchedOp.opStart] [⟨0, 0, 1, 1, 0⟩] rfl

/-! ### Settings-manager lock results -/

/-- C2: `ResetToDefaults` never returns.  Even with a fault-free
database (`happyEnv`), from every starting store the method reaches its
final cache reload while still holding the manager write lock, and
`LoadSettings` blocks forever re-acquiring `sm.mu`; idempotence is
unattainable because the first call already fails to terminate. -/
theorem resetToDefaults_deadlocks (st : Store) :
    (ResetToDefaults happyEnv st).isDeadlock = true
    ∧ ResetToDefaults happyEnv st =
        MgrOutcome.deadlock (initializeDefaultSettings (deleteAllKeys happyEnv st)) := by
  constructor <;> simp [ResetToDefaults, happyEnv, LoadSettings, MgrOutcome.isDeadlock]

/-- Witness for C2 at a concrete input: the empty store. -/
theorem resetToDefaults_deadlocks_witness :
    (ResetToDefaults happyEnv []).isDeadlock = true :=
  (resetToDefaults_deadlocks []).1

/-- C3: `ImportSettings` applies every update best-effort — a write
failure on one key is skipped and does not abort the remaining writes —
but the method then reaches its final cache reload while still holding
the manager write lock, and `LoadSettings` blocks forever re-acquiring
`sm.mu`, so the operation hangs instead of completing. -/
theorem importSettings_best_effort_then_deadlock :
    (∀ (env : DbEnv) (updates : List (String × String)) (st : Store),
        (ImportSettings env updates st).isDeadlock = true)
    ∧ (∀ (env : DbEnv) (k1 v1 k2 v2 : String) (st : Store),
        env.setFails k1 = true → env.setFails k2 = false →
        ImportSettings env [(k1, v1), (k2, v2)] st =
          MgrOutcome.deadlock (upsertStore st k2 v2)) := by
  constructor
  · intro env updates st
    simp [ImportSettings, LoadSettings, MgrOutcome.isDeadlock]
  · intro env k1 v1 k2 v2 st h1 h2
    simp [ImportSettings, applyImports, LoadSettings, h1, h2]

/-- Environment in which writes to the key `bad` fail. -/
def envBad : DbEnv := ⟨fun k => k == "bad", false, fun _ => false, false⟩

/-- Witness for C3 at concrete inputs: the failing write to `bad` is
skipped, the write to `good` lands, and the method deadlocks. -/
theorem importSettings_best_effort_then_deadlock_witness :
    ((ImportSettings envBad [("bad", "1"), ("good", "2")] []).isDeadlock = true)
    ∧ ImportSettings envBad [("bad", "1"), ("good", "2")] [] =
        MgrOutcome.deadlock [("good", "2")] := by
  refine ⟨importSettings_best_effort_then_deadlock.1 envBad [("bad", "1"), ("good", "2")] [], ?_⟩
  have h := importSettings_best_effort_then_deadlock.2 envBad "bad" "1" "good" "2" []
    (by decide) (by decide)
  rw [h]
  rfl

/-! ### Cron validation results -/

/-- Boolean error test for `Except` results. -/
def exceptIsError : Except ε α → Bool
  | .error _ => true
  | .ok _ => false

/-- C4: `AddTask` rejects malformed cron specifications and registers
nothing: the spec with minute 60 is rejected, the spec with a zero step
is rejected, every spec whose whitespace-separated field count differs
from five is rejected, and whenever validation fails `AddTask` returns
an error and leaves the task list unchanged. -/
theorem addTask_rejects_malformed :
    (exceptIsError (validateCronSchedule "60 3 * * 0".toList) = true)
    ∧ (exceptIsError (validateCronSchedule "*/0 * * * *".toList) = true)
    ∧ (∀ s : List Char, (fieldsCh s).length ≠ 5 →
        exceptIsError (validateCronSchedule s) = true)
    ∧ (∀ (tasks : List CTask) (name s : List Char),
        exceptIsError (validateCronSchedule s) = true →
        (AddTask tasks name s).2 = tasks ∧ exceptIsError (AddTask tasks name s).1 = true) := by
  refine ⟨by decide, by decide, ?_, ?_⟩
  · intro s h
    unfold validateCronSchedule
    split
    · next mi hh d mo w heq =>
      exfalso
      apply h
      rw [heq]
      rfl
    · rfl
  · intro tasks name s h
    unfold AddTask
    cases hv : validateCronSchedule s with
    | error e => simp [exceptIsError]
    | ok u =>
      rw [hv] at h
      exact absurd h (by simp [exceptIsError])

/-- Witness for C4 at concrete inputs: a four-field spec is rejected,
and registering the minute-60 spec fails without touching the task
list. -/
theorem addTask_rejects_malformed_witness :
    (exceptIsError (validateCronSchedule "1 2 3 4".toList) = true)
    ∧ ((AddTask [] "t".toList "60 3 * * 0".toList).2 = [])
    ∧ (exceptIsError (AddTask [] "t".toList "60 3 * * 0".toList).1 = true) :=
  ⟨addTask_rejects_malformed.2.2.1 ("1 2 3 4".toList) (by decide),
   (addTask_rejects_malformed.2.2.2 [] ("t".toList) ("60 3 * * 0".toList)
      addTask_rejects_malformed.1).1,
   (addTask_rejects_malformed.2.2.2 [] ("t".toList) ("60 3 * * 0".toList)
      addTask_rejects_malformed.1).2⟩

/-! ### Helper lemmas for the field-matching semantics -/

theorem goContains_of_mem (l : List Char) (c : Char) (h : c ∈ l) :
    goContains l c = true := by
  simp only [goContains, List.any_eq_true]
  exact ⟨c, h, by simp⟩

theorem anyCongr (l : List (List Char)) (f g : List Char → Bool)
    (h : ∀ x ∈ l, f x = g x) : l.any f = l.any g := by
  induction l with
  | nil => rfl
  | cons a as ih =>
    simp only [List.any_cons]
    rw [h a (List.mem_cons_self a as),
        ih (fun x hx => h x (List.mem_cons_of_mem a hx))]

theorem digits_not_special (d : List Char) (h : ∀ x ∈ d, isDigitCh x = true)
    (c : Char) (hc : isDigitCh c = false) : ∀ x ∈ d, x ≠ c :=
  fun x hx => isDigitCh_ne_of_not_digit x c (h x hx) hc

theorem digits_ne_star (d : List Char) (h : ∀ x ∈ d, isDigitCh x = true) :
    d ≠ starField := by
  intro he
  have hmem : '*' ∈ d := by
    rw [he]
    simp [starField]
  have := h '*' hmem
  revert this
  decide

theorem matchField_star (v lo hi : Int) : matchField starField v lo hi = true := by
  simp [matchField]

theorem matchField_exact (d : List Char) (v lo hi : Int) (h0 : d ≠ [])
    (hd : ∀ x ∈ d, isDigitCh x = true) :
    matchField d v lo hi = (((digitsToNat d : Nat) : Int) == v) := by
  have hne : d ≠ starField := digits_ne_star d hd
  have h1 : goContains d '-' = false :=
    goContains_eq_false d '-' (digits_not_special d hd '-' (by decide))
  have h2 : goContains d ',' = false :=
    goContains_eq_false d ',' (digits_not_special d hd ',' (by decide))
  have h3 : goContains d '/' = false :=
    goContains_eq_false d '/' (digits_not_special d hd '/' (by decide))
  have h4 : atoi d = some ((digitsToNat d : Nat) : Int) := atoi_digits d h0 hd
  simp [matchField, hne, h1, h2, h3, h4]

theorem matchField_range (d1 d2 : List Char) (v lo hi : Int)
    (h01 : d1 ≠ []) (h02 : d2 ≠ [])
    (hd1 : ∀ x ∈ d1, isDigitCh x = true) (hd2 : ∀ x ∈ d2, isDigitCh x = true) :
    matchField (d1 ++ '-' :: d2) v lo hi =
      (decide (((digitsToNat d1 : Nat) : Int) ≤ v)
        && decide (v ≤ ((digitsToNat d2 : Nat) : Int))) := by
  have hmem : '-' ∈ d1 ++ '-' :: d2 := by simp
  have hne : d1 ++ '-' :: d2 ≠ starField := by
    intro he
    rw [he] at hmem
    revert hmem
    decide
  have hcont : goContains (d1 ++ '-' :: d2) '-' = true := goContains_of_mem _ '-' hmem
  have hsplit : splitCh '-' (d1 ++ '-' :: d2) = [d1, d2] := by
    rw [splitCh_append '-' d1 d2 (digits_not_special d1 hd1 '-' (by decide)),
        splitCh_eq_single '-' d2 (digits_not_special d2 hd2 '-' (by decide))]
  have ha1 : atoi d1 = some ((digitsToNat d1 : Nat) : Int) := atoi_digits d1 h01 hd1
  have ha2 : atoi d2 = some ((digitsToNat d2 : Nat) : Int) := atoi_digits d2 h02 hd2
  simp [matchField, hne, hcont, hsplit, ha1, ha2]

theorem matchField_list (ps : List (List Char)) (v lo hi : Int)
    (hlen : 2 ≤ ps.length)
    (hps : ∀ p ∈ ps, p ≠ [] ∧ ∀ x ∈ p, isDigitCh x = true) :
    matchField (joinSep ',' ps) v lo hi =
      ps.any (fun p => ((digitsToNat p : Nat) : Int) == v) := by
  have hchars : ∀ x ∈ joinSep ',' ps, x = ',' ∨ isDigitCh x = true := by
    intro x hx
    rcases joinSep_mem ',' ps x hx with h1 | ⟨p, hp, hxp⟩
    · exact Or.inl h1
    · exact Or.inr ((hps p hp).2 x hxp)
  have hcomma : goContains (joinSep ',' ps) ',' = true :=
    goContains_joinSep_true ',' ps hlen
  have hne : joinSep ',' ps ≠ starField := by
    intro he
    rw [he] at hcomma
    revert hcomma
    decide
  have hdash : goContains (joinSep ',' ps) '-' = false := by
    apply goContains_eq_false
    intro x hx
    rcases hchars x hx with h1 | h1
    · rw [h1]
      decide
    · exact isDigitCh_ne_of_not_digit x '-' h1 (by decide)
  have hsplit : splitCh ',' (joinSep ',' ps) = ps := by
    apply splitCh_joinSep ',' ps (by intro he; rw [he] at hlen; simp at hlen)
    intro p hp x hx
    exact isDigitCh_ne_of_not_digit x ',' ((hps p hp).2 x hx) (by decide)
  have hbody : ∀ p ∈ ps,
      (match atoi (trimSpace p) with
       | some n => n == v
       | none => false) = (((digitsToNat p : Nat) : Int) == v) := by
    intro p hp
    rw [trimSpace_eq_self p (digits_no_space p (hps p hp).2),
        atoi_digits p (hps p hp).1 (hps p hp).2]
  simp only [matchField, hne, if_false, hdash, hcomma, hsplit, if_true,
    Bool.false_eq_true, if_neg, reduceIte]
  exact anyCongr ps _ _ hbody

theorem matchField_strideStar (d : List Char) (v lo hi : Int) (h0 : d ≠ [])
    (hd : ∀ x ∈ d, isDigitCh x = true) (hpos : 0 < ((digitsToNat d : Nat) : Int)) :
    matchField ('*' :: '/' :: d) v lo hi =
      (Int.tmod v ((digitsToNat d : Nat) : Int) == 0) := by
  have hne : ('*' :: '/' :: d) ≠ starField := by
    simp [starField]
  have hchars : ∀ x ∈ '*' :: '/' :: d, x = '*' ∨ x = '/' ∨ isDigitCh x = true := by
    intro x hx
    rcases List.mem_cons.mp hx with h1 | hx2
    · exact Or.inl h1
    · rcases List.mem_cons.mp hx2 with h1 | hx3
      · exact Or.inr (Or.inl h1)
      · exact Or.inr (Or.inr (hd x hx3))
  have hdash : goContains ('*' :: '/' :: d) '-' = false := by
    apply goContains_eq_false
    intro x hx
    rcases hchars x hx with h1 | h1 | h1
    · rw [h1]; decide
    · rw [h1]; decide
    · exact isDigitCh_ne_of_not_digit x '-' h1 (by decide)
  have hcomma : goContains ('*' :: '/' :: d) ',' = false := by
    apply goContains_eq_false
    intro x hx
    rcases hchars x hx with h1 | h1 | h1
    · rw [h1]; decide
    · rw [h1]; decide
    · exact isDigitCh_ne_of_not_digit x ',' h1 (by decide)
  have hslash : goContains ('*' :: '/' :: d) '/' = true :=
    goContains_of_mem _ '/' (by simp)
  have hsplit : splitCh '/' ('*' :: '/' :: d) = [['*'], d] := by
    have := splitCh_append '/' ['*'] d (by intro x hx; simp at hx; rw [hx]; decide)
    simp only [List.singleton_append] at this
    rw [this, splitCh_eq_single '/' d (digits_not_special d hd '/' (by decide))]
  have ha : atoi d = some ((digitsToNat d : Nat) : Int) := atoi_digits d h0 hd
  simp [matchField, hne, hdash, hcomma, hslash, hsplit, ha, hpos, starField]

theorem matchField_strideStart (d1 d2 : List Char) (v lo hi : Int)
    (h01 : d1 ≠ []) (h02 : d2 ≠ [])
    (hd1 : ∀ x ∈ d1, isDigitCh x = true) (hd2 : ∀ x ∈ d2, isDigitCh x = true)
    (hpos : 0 < ((digitsToNat d2 : Nat) : Int)) :
    matchField (d1 ++ '/' :: d2) v lo hi =
      (decide (((digitsToNat d1 : Nat) : Int) ≤ v)
        && (Int.tmod (v - ((digitsToNat d1 : Nat) : Int)) ((digitsToNat d2 : Nat) : Int)
              == 0)) := by
  have hchars : ∀ x ∈ d1 ++ '/' :: d2, x = '/' ∨ isDigitCh x = true := by
    intro x hx
    rcases List.mem_append.mp hx with h1 | h1
    · exact Or.inr (hd1 x h1)
    · rcases List.mem_cons.mp h1 with h2 | h2
      · exact Or.inl h2
      · exact Or.inr (hd2 x h2)
  have hmem : '/' ∈ d1 ++ '/' :: d2 := by simp
  have hne : d1 ++ '/' :: d2 ≠ starField := by
    intro he
    rw [he] at hmem
    revert hmem
    decide
  have hdash : goContains (d1 ++ '/' :: d2) '-' = false := by
    apply goContains_eq_false
    intro x hx
    rcases hchars x hx with h1 | h1
    · rw [h1]; decide
    · exact isDigitCh_ne_of_not_digit x '-' h1 (by decide)
  have hcomma : goContains (d1 ++ '/' :: d2) ',' = false := by
    apply goContains_eq_false
    intro x hx
    rcases hchars x hx with h1 | h1
    · rw [h1]; decide
    · exact isDigitCh_ne_of_not_digit x ',' h1 (by decide)
  have hslash : goContains (d1 ++ '/' :: d2) '/' = true := goContains_of_mem _ '/' hmem
  have hsplit : splitCh '/' (d1 ++ '/' :: d2) = [d1, d2] := by
    rw [splitCh_append '/' d1 d2 (digits_not_special d1 hd1 '/' (by decide)),
        splitCh_eq_single '/' d2 (digits_not_special d2 hd2 '/' (by decide))]
  have ha1 : atoi d1 = some ((digitsToNat d1 : Nat) : Int) := atoi_digits d1 h01 hd1
  have ha2 : atoi d2 = some ((digitsToNat d2 : Nat) : Int) := atoi_digits d2 h02 hd2
  have hnestar : d1 ≠ starField := digits_ne_star d1 hd1
  simp [matchField, hne, hdash, hcomma, hslash, hsplit, ha1, ha2, hpos, hnestar]

/-- C5 counterexample: the claim that a stride `start/step` matches
exactly when `(value - start) % step == 0`, with no `value >= start`
condition, fails on field `30/10` at the in-range value 20:
`(20 - 30) % 10 == 0` under Go's truncated remainder, yet `matchField`
answers false because the source also requires `value >= start`. -/
theorem matchField_stride_counterexample :
    matchField ("30/10".toList) 20 0 59 = false ∧ Int.tmod (20 - 30) 10 = 0 := by
  constructor
  · decide
  · decide

/-- C5 (amended): for every in-range value, `*` always matches; an
all-digit field matches by numeric equality; `a-b` over digit endpoints
matches the inclusive range; a comma list of digit entries matches by
membership; `*/step` with a positive step matches exactly when
`value % step == 0`; and a stride `start/step` with a positive step
matches exactly when `value >= start` AND `(value - start) % step == 0`
— the `value >= start` conjunct is required by the source. -/
theorem matchField_semantics :
    (∀ v lo hi : Int, matchField starField v lo hi = true)
    ∧ (∀ (d : List Char) (v lo hi : Int), d ≠ [] → (∀ x ∈ d, isDigitCh x = true) →
        matchField d v lo hi = (((digitsToNat d : Nat) : Int) == v))
    ∧ (∀ (d1 d2 : List Char) (v lo hi : Int), d1 ≠ [] → d2 ≠ [] →
        (∀ x ∈ d1, isDigitCh x = true) → (∀ x ∈ d2, isDigitCh x = true) →
        matchField (d1 ++ '-' :: d2) v lo hi =
          (decide (((digitsToNat d1 : Nat) : Int) ≤ v)
            && decide (v ≤ ((digitsToNat d2 : Nat) : Int))))
    ∧ (∀ (ps : List (List Char)) (v lo hi : Int), 2 ≤ ps.length →
        (∀ p ∈ ps, p ≠ [] ∧ ∀ x ∈ p, isDigitCh x = true) →
        matchField (joinSep ',' ps) v lo hi =
          ps.any (fun p => ((digitsToNat p : Nat) : Int) == v))
    ∧ (∀ (d : List Char) (v lo hi : Int), d ≠ [] → (∀ x ∈ d, isDigitCh x = true) →
        0 < ((digitsToNat d : Nat) : Int) →
        matchField ('*' :: '/' :: d) v lo hi =
          (Int.tmod v ((digitsToNat d : Nat) : Int) == 0))
    ∧ (∀ (d1 d2 : List Char) (v lo hi : Int), d1 ≠ [] → d2 ≠ [] →
        (∀ x ∈ d1, isDigitCh x = true) → (∀ x ∈ d2, isDigitCh x = true) →
        0 < ((digitsToNat d2 : Nat) : Int) →
        matchField (d1 ++ '/' :: d2) v lo hi =
          (decide (((digitsToNat d1 : Nat) : Int) ≤ v)
            && (Int.tmod (v - ((digitsToNat d1 : Nat) : Int)) ((digitsToNat d2 : Nat) : Int)
                  == 0))) :=
  ⟨matchField_star,
   fun d v lo hi h0 hd => matchField_exact d v lo hi h0 hd,
   fun d1 d2 v lo hi h01 h02 hd1 hd2 => matchField_range d1 d2 v lo hi h01 h02 hd1 hd2,
   fun ps v lo hi hlen hps => matchField_list ps v lo hi hlen hps,
   fun d v lo hi h0 hd hpos => matchField_strideStar d v lo hi h0 hd hpos,
   fun d1 d2 v lo hi h01 h02 hd1 hd2 hpos =>
     matchField_strideStart d1 d2 v lo hi h01 h02 hd1 hd2 hpos⟩

/-- Witness for C5 at concrete inputs: field `30/10` at values 40
(matches: 40 over start 30, offset divisible) and 20 (blocked by the
start bound), range `10-20` at 15, list `1,3,5` at 3, and `*/15` at
45. -/
theorem matchField_semantics_witness :
    (matchField ("30/10".toList) 40 0 59 =
      (decide (((digitsToNat ("30".toList) : Nat) : Int) ≤ 40)
        && (Int.tmod (40 - ((digitsToNat ("30".toList) : Nat) : Int))
              ((digitsToNat ("10".toList) : Nat) : Int) == 0)))
    ∧ (matchField ("10-20".toList) 15 0 59 =
        (decide (((digitsToNat ("10".toList) : Nat) : Int) ≤ 15)
          && decide ((15 : Int) ≤ ((digitsToNat ("20".toList) : Nat) : Int))))
    ∧ (matchField ("7".toList) 7 0 59 = (((digitsToNat ("7".toList) : Nat) : Int) == 7)) :=
  ⟨matchField_semantics.2.2.2.2.2 ("30".toList) ("10".toList) 40 0 59
      (by decide) (by decide) (by decide) (by decide) (by decide),
   matchField_semantics.2.2.1 ("10".toList) ("20".toList) 15 0 59
      (by decide) (by decide) (by decide) (by decide),
   matchField_semantics.2.1 ("7".toList) 7 0 59 (by decide) (by decide)⟩

/-! ### Typed-accessor results -/

theorem parseBool_empty : parseBool "" = none := by decide

theorem atoi_empty : atoi ("".toList) = none := rfl

theorem parseStringArray_empty : parseStringArray ("".toList) = none := rfl

/-- C6 counterexample: the claim that the typed accessors return the
parsed value whenever the raw value parses according to its kind fails
for `GetStringArraySetting`: the stored value `[]` parses to the empty
list, yet the accessor returns the caller-supplied default. -/
theorem getStringArray_parsed_empty_counterexample :
    parseStringArray ("[]".toList) = some []
    ∧ GetStringArraySetting [("k", "[]")] "k" [("x".toList)] = [("x".toList)] := by
  constructor
  · decide
  · decide

/-- C6 (amended): `GetBoolSetting` and `GetIntSetting` return the
parsed value when the raw value parses and the default on absence or
parse failure; `GetStringArraySetting` does the same except that a
value parsing to the EMPTY array also falls back to the default.  All
three always return a plain value — no error reaches the caller. -/
theorem typedAccessors_semantics :
    (∀ (st : Store) (k : String) (d : Bool),
      (lookupStore st k = none → GetBoolSetting st k d = d)
      ∧ (∀ v, lookupStore st k = some v → parseBool v = none → GetBoolSetting st k d = d)
      ∧ (∀ v b, lookupStore st k = some v → parseBool v = some b → GetBoolSetting st k d = b))
    ∧ (∀ (st : Store) (k : String) (d : Int),
      (lookupStore st k = none → GetIntSetting st k d = d)
      ∧ (∀ v, lookupStore st k = some v → atoi v.toList = none → GetIntSetting st k d = d)
      ∧ (∀ v n, lookupStore st k = some v → atoi v.toList = some n → GetIntSetting st k d = n))
    ∧ (∀ (st : Store) (k : String) (d : List (List Char)),
      (lookupStore st k = none → GetStringArraySetting st k d = d)
      ∧ (∀ v, lookupStore st k = some v → parseStringArray v.toList = none →
          GetStringArraySetting st k d = d)
      ∧ (∀ v l, lookupStore st k = some v → parseStringArray v.toList = some l → l ≠ [] →
          GetStringArraySetting st k d = l)
      ∧ (∀ v, lookupStore st k = some v → parseStringArray v.toList = some [] →
          GetStringArraySetting st k d = d)) := by
  refine ⟨fun st k d => ⟨?_, ?_, ?_⟩, fun st k d => ⟨?_, ?_, ?_⟩, fun st k d => ⟨?_, ?_, ?_, ?_⟩⟩
  · intro h
    simp [GetBoolSetting, getSettingGo, h]
  · intro v hlk hpb
    by_cases hv : v = ""
    · simp [GetBoolSetting, getSettingGo, hlk, hv]
    · simp [GetBoolSetting, getSettingGo, hlk, hv, hpb]
  · intro v b hlk hpb
    have hv : v ≠ "" := by
      intro he
      rw [he, parseBool_empty] at hpb
      exact Option.noConfusion hpb
    simp [GetBoolSetting, getSettingGo, hlk, hv, hpb]
  · intro h
    simp [GetIntSetting, getSettingGo, h]
  · intro v hlk hpa
    simp only [String.toList] at hpa
    by_cases hv : v = ""
    · simp [GetIntSetting, getSettingGo, hlk, hv]
    · simp [GetIntSetting, getSettingGo, hlk, hv, hpa]
  · intro v n hlk hpa
    have hv : v ≠ "" := by
      intro he
      rw [he, atoi_empty] at hpa
      exact Option.noConfusion hpa
    simp only [String.toList] at hpa
    simp [GetIntSetting, getSettingGo, hlk, hv, hpa]
  · intro h
    simp [GetStringArraySetting, getSettingGo, h]
  · intro v hlk hpa
    simp only [String.toList] at hpa
    by_cases hv : v = ""
    · simp [GetStringArraySetting, getSettingGo, hlk, hv]
    · simp [GetStringArraySetting, getSettingGo, hlk, hv, hpa]
  · intro v l hlk hpa hl
    have hv : v ≠ "" := by
      intro he
      rw [he, parseStringArray_empty] at hpa
      exact Option.noConfusion hpa
    simp only [String.toList] at hpa
    simp [GetStringArraySetting, getSettingGo, hlk, hv, hpa, hl]
  · intro v hlk hpa
    have hv : v ≠ "" := by
      intro he
      rw [he, parseStringArray_empty] at hpa
      exact Option.noConfusion hpa
    simp only [String.toList] at hpa
    simp [GetStringArraySetting, getSettingGo, hlk, hv, hpa]

/-- Witness for C6 at concrete inputs: a parsing bool, a failing bool,
a parsing int, and a nonempty array. -/
theorem typedAccessors_semantics_witness :
    (GetBoolSetting [("b", "true")] "b" false = true)
    ∧ (GetBoolSetting [("b", "yes")] "b" false = false)
    ∧ (GetIntSetting [("i", "42")] "i" 7 = 42)
    ∧ (GetStringArraySetting [("a", "[\"x\"]")] "a" [] = [("x".toList)]) :=
  ⟨(typedAccessors_semantics.1 [("b", "true")] "b" false).2.2 "true" true
      (by decide) (by decide),
   (typedAccessors_semantics.1 [("b", "yes")] "b" false).2.1 "yes"
      (by decide) (by decide),
   (typedAccessors_semantics.2.1 [("i", "42")] "i" 7).2.2 "42" 42
      (by decide) (by decide),
   (typedAccessors_semantics.2.2 [("a", "[\"x\"]")] "a" []).2.2.1 "[\"x\"]" [("x".toList)]
      (by decide) (by decide) (by decide)⟩

/-- C10: a stored value that deserialises to the empty JSON array makes
`GetStringArraySetting` return the caller-supplied default — storing an
empty list is indistinguishable from the key being absent — and with a
nonempty default the accessor can never return an empty list. -/
theorem getStringArray_never_empty :
    (∀ (st : Store) (k : String) (d : List (List Char)) (v : String),
        lookupStore st k = some v → parseStringArray v.toList = some [] →
        GetStringArraySetting st k d = d)
    ∧ (∀ (st : Store) (k : String) (d : List (List Char)),
        d ≠ [] → GetStringArraySetting st k d ≠ []) := by
  constructor
  · intro st k d v hlk hpa
    have hv : v ≠ "" := by
      intro he
      rw [he, parseStringArray_empty] at hpa
      exact Option.noConfusion hpa
    simp only [String.toList] at hpa
    simp [GetStringArraySetting, getSettingGo, hlk, hv, hpa]
  · intro st k d hd
    unfold GetStringArraySetting
    by_cases hv : getSettingGo st k = ""
    · simpa [hv] using hd
    · cases hpa : parseStringArray (getSettingGo st k).toList with
      | none =>
        simp only [String.toList] at hpa
        simpa [hv, hpa] using hd
      | some l =>
        simp only [String.toList] at hpa
        by_cases hl : l.length = 0
        · simpa [hv, hpa, hl] using hd
        · have hl2 : l ≠ [] := by
            intro he
            rw [he] at hl
            exact hl rfl
          simpa [hv, hpa, hl] using hl2

/-- Witness for C10 at concrete inputs. -/
theorem getStringArray_never_empty_witness :
    (GetStringArraySetting [("k", "[ ]")] "k" [("x".toList)] = [("x".toList)])
    ∧ (GetStringArraySetting [("k", "[ ]")] "k" [("x".toList)] ≠ []) :=
  ⟨getStringArray_never_empty.1 [("k", "[ ]")] "k" [("x".toList)] "[ ]"
      (by decide) (by decide),
   getStringArray_never_empty.2 [("k", "[ ]")] "k" [("x".toList)] (by decide)⟩

/-! ### Client-IP results -/

theorem dropWhile_append_all (p : Char → Bool) (l1 l2 : List Char)
    (h : ∀ x ∈ l1, p x = true) : (l1 ++ l2).dropWhile p = l2.dropWhile p := by
  induction l1 with
  | nil => rfl
  | cons a as ih =>
    simp [List.dropWhile_cons, h a (List.mem_cons_self a as),
      ih (fun x hx => h x (List.mem_cons_of_mem a hx))]

theorem dropFromLastColon_no_colon (l : List Char) (h : ∀ x ∈ l, x ≠ ':') :
    dropFromLastColon l = l := by
  unfold dropFromLastColon
  have hnil : l.reverse.dropWhile (fun x => !(x == ':')) = [] := by
    rw [List.dropWhile_eq_nil_iff]
    intro x hx
    simp [h x (List.mem_reverse.mp hx)]
  rw [hnil]

theorem dropFromLastColon_append (host port : List Char) (h : ∀ x ∈ port, x ≠ ':') :
    dropFromLastColon (host ++ ':' :: port) = host := by
  unfold dropFromLastColon
  have hrev : (host ++ ':' :: port).reverse = port.reverse ++ ':' :: host.reverse := by
    simp
  rw [hrev, dropWhile_append_all _ _ _
    (fun x hx => by simp [h x (List.mem_reverse.mp hx)])]
  simp [List.dropWhile_cons]

/-- C7 counterexample: with an X-Forwarded-For value carrying a port,
`getClientIP` returns it with the port intact — the port/bracket
stripping claimed for the returned identity does not happen on the
header paths. -/
theorem getClientIP_port_counterexample :
    getClientIP ⟨("1.2.3.4:8080".toList), [], ("9.9.9.9:80".toList)⟩ = ("1.2.3.4:8080".toList)
    ∧ ':' ∈ getClientIP ⟨("1.2.3.4:8080".toList), [], ("9.9.9.9:80".toList)⟩ := by
  constructor
  · decide
  · decide

/-- C7 (amended): `getClientIP` prefers the first comma-separated entry
of X-Forwarded-For (whitespace-trimmed, otherwise verbatim), then
X-Real-IP (whitespace-trimmed, otherwise verbatim), then the raw
connection address; port stripping (everything from the last colon on)
and bracket trimming are applied only on the connection-address
fallback. -/
theorem getClientIP_semantics :
    (∀ (r : HttpReq) (ip : List Char) (rest : List (List Char)),
        r.xff ≠ [] → splitCh ',' r.xff = ip :: rest → getClientIP r = trimSpace ip)
    ∧ (∀ r : HttpReq, r.xff = [] → r.xri ≠ [] → getClientIP r = trimSpace r.xri)
    ∧ (∀ (r : HttpReq) (host port : List Char), r.xff = [] → r.xri = [] →
        (∀ x ∈ port, x ≠ ':') → r.remoteAddr = host ++ ':' :: port →
        getClientIP r = trimBrackets host)
    ∧ (∀ r : HttpReq, r.xff = [] → r.xri = [] → (∀ x ∈ r.remoteAddr, x ≠ ':') →
        getClientIP r = trimBrackets r.remoteAddr) := by
  refine ⟨?_, ?_, ?_, ?_⟩
  · intro r ip rest hxff hsplit
    simp [getClientIP, hxff, hsplit]
  · intro r h1 h2
    simp [getClientIP, h1, h2]
  · intro r host port h1 h2 hport haddr
    simp only [getClientIP, h1, h2]
    simp only [ne_eq, not_true_eq_false, if_false, reduceIte]
    rw [haddr, dropFromLastColon_append host port hport]
  · intro r h1 h2 hcolon
    simp only [getClientIP, h1, h2]
    simp only [ne_eq, not_true_eq_false, if_false, reduceIte]
    rw [dropFromLastColon_no_colon r.remoteAddr hcolon]

/-- Witness for C7 at concrete inputs: a two-entry forwarded header and
a bracketed IPv6 connection address with a port. -/
theorem getClientIP_semantics_witness :
    (getClientIP ⟨("7.7.7.7, 8.8.8.8".toList), [], ("9.9.9.9:80".toList)⟩
        = trimSpace ("7.7.7.7".toList))
    ∧ (getClientIP ⟨[], ("6.6.6.6".toList), ("9.9.9.9:80".toList)⟩
        = trimSpace ("6.6.6.6".toList))
    ∧ (getClientIP ⟨[], [], ("[::1]:8080".toList)⟩ = trimBrackets ("[::1]".toList))
    ∧ (getClientIP ⟨[], [], ("9.9.9.9".toList)⟩ = trimBrackets ("9.9.9.9".toList)) :=
  ⟨getClientIP_semantics.1 ⟨("7.7.7.7, 8.8.8.8".toList), [], ("9.9.9.9:80".toList)⟩
      ("7.7.7.7".toList) [(" 8.8.8.8".toList)] (by decide) (by decide),
   getClientIP_semantics.2.1 ⟨[], ("6.6.6.6".toList), ("9.9.9.9:80".toList)⟩
      (by decide) (by decide),
   getClientIP_semantics.2.2.1 ⟨[], [], ("[::1]:8080".toList)⟩
      ("[::1]".toList) ("8080".toList) (by decide) (by decide) (by decide) (by decide),
   getClientIP_semantics.2.2.2 ⟨[], [], ("9.9.9.9".toList)⟩
      (by decide) (by decide) (by decide)⟩

end Anime
